import Mathlib

/-!
Verification of the wirefight load-testing harness.

This file gives a shallow embedding of the statistics-aggregation engine
(`loadgen/internal/results`) and of the workload executor
(`go-service/internal/logic/compute.go`), and proves the specification
claims about them.

Modelling conventions:
* Go `float64` values (latencies, rates, percentiles) are modelled as `ℚ`
  with exact arithmetic.
* Go `int` loop counters and slice lengths are modelled as `ℕ`; Go `int`
  request fields that may be negative are modelled as `ℤ`, with Go's
  truncated integer division modelled by `Int.tdiv`.
* Wall-clock readings (`time.Now()`, elapsed durations, timestamps) are
  impure in Go; the embedding passes them in as explicit parameters.
-/

namespace results

/-- Embedding of `results.RequestResult`: the outcome of a single request.
Start and end times are abstract rational instants. -/
structure RequestResult where
  startTime : ℚ := 0
  endTime : ℚ := 0
  latencyMs : ℚ := 0
  success : Bool
  error : String := ""

/-- Embedding of `results.AggregatedStats`: aggregated statistics of a run.
Counts are Go `int`s holding slice lengths, modelled as `ℕ`. -/
structure AggregatedStats where
  totalRequests : ℕ
  successfulRequests : ℕ
  failedRequests : ℕ
  rps : ℚ
  p50 : ℚ
  p90 : ℚ
  p95 : ℚ
  p99 : ℚ
  mean : ℚ
  min : ℚ
  max : ℚ
  errorRate : ℚ

/-- The Go zero value `AggregatedStats{}`: every field zero. -/
def AggregatedStats.zero : AggregatedStats :=
  { totalRequests := 0, successfulRequests := 0, failedRequests := 0
    rps := 0, p50 := 0, p90 := 0, p95 := 0, p99 := 0
    mean := 0, min := 0, max := 0, errorRate := 0 }

/-- Embedding of `results.Collector`: an append-only slice of results. -/
structure Collector where
  results : List RequestResult

/-- Embedding of `results.NewCollector` (the initial capacity hint is not
observable). -/
def NewCollector : Collector := ⟨[]⟩

/-- Embedding of `(*Collector).Add`: append one result. -/
def Collector.Add (c : Collector) (r : RequestResult) : Collector :=
  ⟨c.results ++ [r]⟩

/-- Embedding of `results.percentile`: interpolated percentile of an
ascending-sorted slice.  `math.Floor`/`math.Ceil` followed by `int(...)`
on a non-negative index are modelled by `Int.floor`/`Int.ceil` and
`Int.toNat`; Go's in-range slice indexing is modelled by `List.getD`. -/
def percentile (sorted : List ℚ) (p : ℚ) : ℚ :=
  if sorted.length = 0 then 0
  else
    let index : ℚ := (p / 100) * ((sorted.length : ℚ) - 1)
    let lower : ℤ := ⌊index⌋
    let upper : ℤ := ⌈index⌉
    if lower = upper then
      sorted.getD lower.toNat 0
    else
      let weight : ℚ := index - (lower : ℚ)
      sorted.getD lower.toNat 0 * (1 - weight) + sorted.getD upper.toNat 0 * weight

/-- Embedding of `results.mean`: arithmetic mean of a slice. -/
def mean (data : List ℚ) : ℚ :=
  if data.length = 0 then 0 else data.sum / (data.length : ℚ)

/-- Embedding of `(*Collector).Aggregate`.  The Go loop that splits results
into successes and failures is modelled by the two filters; `sort.Float64s`
is modelled by `List.mergeSort`; `duration.Seconds()` is passed in as the
rational `durationSeconds`. -/
def Collector.Aggregate (c : Collector) (durationSeconds : ℚ) : AggregatedStats :=
  if c.results.length = 0 then AggregatedStats.zero
  else
    let successResults := c.results.filter (fun r => r.success)
    let successLatencies := successResults.map (fun r => r.latencyMs)
    let successCount := successResults.length
    let failCount := (c.results.filter (fun r => !r.success)).length
    let stats : AggregatedStats :=
      { totalRequests := c.results.length
        successfulRequests := successCount
        failedRequests := failCount
        rps := (successCount : ℚ) / durationSeconds
        p50 := 0, p90 := 0, p95 := 0, p99 := 0
        mean := 0, min := 0, max := 0
        errorRate := (failCount : ℚ) / (c.results.length : ℚ) }
    if successLatencies.length = 0 then stats
    else
      let sorted := successLatencies.mergeSort (fun a b => a ≤ b)
      { stats with
        p50 := percentile sorted 50
        p90 := percentile sorted 90
        p95 := percentile sorted 95
        p99 := percentile sorted 99
        min := sorted.getD 0 0
        max := sorted.getD (sorted.length - 1) 0
        mean := mean sorted }

/-- The latencies 1..100 ms fed to the collector in the reference scenario
(`TestCollector_Aggregate`). -/
def sampleLatencies : List ℚ := (List.range 100).map (fun i => ((i + 1 : ℕ) : ℚ))

/-- The reference collector: 100 successful results with latencies
1..100 ms followed by 10 failed results. -/
def sampleCollector : Collector :=
  ⟨sampleLatencies.map (fun x => ({ latencyMs := x, success := true } : RequestResult)) ++
    List.replicate 10 ({ success := false, error := "test error" } : RequestResult)⟩

end results

namespace logic

/-- 2^32, the modulus of Go `uint32` arithmetic inside `crypto/sha256`. -/
def w32 : ℕ := 4294967296

/-- Addition modulo 2^32. -/
def add32 (a b : ℕ) : ℕ := (a + b) % w32

/-- Right rotation of a 32-bit word by `k` bits. -/
def rotr32 (k n : ℕ) : ℕ := ((n >>> k) ||| (n <<< (32 - k))) % w32

/-- Three-way xor. -/
def xor3 (a b c : ℕ) : ℕ := (a ^^^ b) ^^^ c

/-- SHA-256 big Sigma0. -/
def bigSigma0 (x : ℕ) : ℕ := xor3 (rotr32 2 x) (rotr32 13 x) (rotr32 22 x)

/-- SHA-256 big Sigma1. -/
def bigSigma1 (x : ℕ) : ℕ := xor3 (rotr32 6 x) (rotr32 11 x) (rotr32 25 x)

/-- SHA-256 small sigma0. -/
def smallSigma0 (x : ℕ) : ℕ := xor3 (rotr32 7 x) (rotr32 18 x) (x >>> 3)

/-- SHA-256 small sigma1. -/
def smallSigma1 (x : ℕ) : ℕ := xor3 (rotr32 17 x) (rotr32 19 x) (x >>> 10)

/-- SHA-256 choice function. -/
def chF (e f g : ℕ) : ℕ := (e &&& f) ^^^ ((e ^^^ 4294967295) &&& g)

/-- SHA-256 majority function. -/
def majF (a b c : ℕ) : ℕ := ((a &&& b) ^^^ (a &&& c)) ^^^ (b &&& c)

/-- The 64 SHA-256 round constants. -/
def shaK : Array ℕ := #[
  1116352408, 1899447441, 3049323471, 3921009573, 961987163, 1508970993,
  2453635748, 2870763221, 3624381080, 310598401, 607225278, 1426881987,
  1925078388, 2162078206, 2614888103, 3248222580, 3835390401, 4022224774,
  264347078, 604807628, 770255983, 1249150122, 1555081692, 1996064986,
  2554220882, 2821834349, 2952996808, 3210313671, 3336571891, 3584528711,
  113926993, 338241895, 666307205, 773529912, 1294757372, 1396182291,
  1695183700, 1986661051, 2177026350, 2456956037, 2730485921, 2820302411,
  3259730800, 3345764771, 3516065817, 3600352804, 4094571909, 275423344,
  430227734, 506948616, 659060556, 883997877, 958139571, 1322822218,
  1537002063, 1747873779, 1955562222, 2024104815, 2227730452, 2361852424,
  2428436474, 2756734187, 3204031479, 3329325298]

/-- The SHA-256 initial hash value. -/
def shaH0 : List ℕ :=
  [1779033703, 3144134277, 1013904242, 2773480762,
   1359893119, 2600822924, 528734635, 1541459225]

/-- Big-endian byte decomposition of `v` into `n` bytes. -/
def bytesBE (n v : ℕ) : List ℕ := (List.range n).reverse.map (fun i => (v >>> (8 * i)) % 256)

/-- SHA-256 message padding: a 0x80 byte, zeros to 56 mod 64, then the
bit length as 8 big-endian bytes. -/
def shaPad (msg : List ℕ) : List ℕ :=
  msg ++ [128] ++ List.replicate ((120 - ((msg.length + 1) % 64)) % 64) 0 ++
    bytesBE 8 (msg.length * 8)

/-- Group a byte list into big-endian 32-bit words. -/
def toWords : List ℕ → List ℕ
  | a :: b :: c :: d :: rest => (((a * 256 + b) * 256 + c) * 256 + d) :: toWords rest
  | _ => []

/-- Split a byte list into 64-byte blocks. -/
def chunk64 : List ℕ → List (List ℕ)
  | [] => []
  | x :: rest => ((x :: rest).take 64) :: chunk64 ((x :: rest).drop 64)
termination_by l => l.length
decreasing_by simp [List.length_drop]; omega

/-- One step of the SHA-256 message-schedule extension. -/
def extendW (w : Array ℕ) (t : ℕ) : Array ℕ :=
  w.push (add32 (add32 (smallSigma1 (w.getD (t + 14) 0)) (w.getD (t + 9) 0))
    (add32 (smallSigma0 (w.getD (t + 1) 0)) (w.getD t 0)))

/-- The 64-word SHA-256 message schedule of one block. -/
def messageSchedule (block : List ℕ) : Array ℕ :=
  (List.range 48).foldl extendW (toWords block).toArray

/-- One SHA-256 compression round on the eight-word working state. -/
def shaRound (w : Array ℕ) (st : List ℕ) (t : ℕ) : List ℕ :=
  let a := st.getD 0 0
  let b := st.getD 1 0
  let c := st.getD 2 0
  let d := st.getD 3 0
  let e := st.getD 4 0
  let f := st.getD 5 0
  let g := st.getD 6 0
  let h := st.getD 7 0
  let temp1 := add32 h (add32 (bigSigma1 e) (add32 (chF e f g) (add32 (shaK.getD t 0) (w.getD t 0))))
  let temp2 := add32 (bigSigma0 a) (majF a b c)
  [add32 temp1 temp2, a, b, c, add32 d temp1, e, f, g]

/-- SHA-256 compression of one 64-byte block into the hash state. -/
def shaCompress (h : List ℕ) (block : List ℕ) : List ℕ :=
  List.zipWith add32 h ((List.range 64).foldl (shaRound (messageSchedule block)) h)

/-- Embedding of `crypto/sha256.Sum256`: bytes in, 32 bytes out.  This
implementation was checked against the standard SHA-256 test vectors
(empty message and `"abc"`). -/
def sha256 (msg : List ℕ) : List ℕ :=
  ((chunk64 (shaPad msg)).foldl shaCompress shaH0).foldr (fun word acc => bytesBE 4 word ++ acc) []

/-- Lowercase hexadecimal digit. -/
def hexDigit (n : ℕ) : Char := if n < 10 then Char.ofNat (48 + n) else Char.ofNat (87 + n)

/-- Embedding of `fmt.Sprintf("%x", bytes)`: lowercase hex, two digits per
byte. -/
def bytesToHex (bs : List ℕ) : String :=
  String.mk (bs.foldr (fun b acc => hexDigit (b / 16) :: hexDigit (b % 16) :: acc) [])

/-- Embedding of `logic.Request`. -/
structure Request where
  requestID : String
  mode : String
  workFactor : ℤ
  payloadSizeBytes : ℤ

/-- Embedding of `logic.Response`.  The measured processing time and the
completion timestamp are wall-clock readings, supplied to `Execute` as
parameters. -/
structure Response where
  requestID : String
  mode : String
  workFactor : ℤ
  payloadSizeBytes : ℤ
  result : String
  serverProcessingMs : ℚ
  protocol : String
  timestamp : String

/-- The Go constant `ModeCPU`. -/
def ModeCPU : String := "cpu"

/-- The Go constant for the io mode. -/
def ModeIo : String := "io"

/-- Embedding of the payload map built by `logic.generatePayload`. -/
structure Payload where
  data : String
  size : ℤ
  timestamp : ℤ

/-- Embedding of `logic.generatePayload`: a dummy payload of roughly the
requested size.  `time.Now().Unix()` is passed in as `nowUnix`; Go's
truncated integer division `sizeBytes / 2` is `Int.tdiv`. -/
def generatePayload (sizeBytes : ℤ) (nowUnix : ℤ) : Payload :=
  let dataSize0 := Int.tdiv sizeBytes 2
  let dataSize := if dataSize0 < 1 then 1 else dataSize0
  { data := String.mk ((List.range dataSize.toNat).map (fun i => Char.ofNat (65 + i % 26)))
    size := sizeBytes
    timestamp := nowUnix }

/-- The initial 32-byte buffer of `executeCPUWork`: the bytes of
`"benchmark-seed-data"` zero-padded to 32 bytes. -/
def cpuSeedData : List ℕ :=
  let s := "benchmark-seed-data".toList.map Char.toNat
  s ++ List.replicate (32 - s.length) 0

/-- One iteration of the `executeCPUWork` loop: hash the running buffer;
every tenth iteration (when a payload size is given) generate a payload
whose JSON marshal/unmarshal round-trip the Go code performs and then
discards — the discarded value is bound and dropped here in the same way. -/
def cpuIteration (payloadSize nowUnix : ℤ) (data : List ℕ) (i : ℕ) : List ℕ :=
  let hash := sha256 data
  let _payload :=
    if 0 < payloadSize ∧ i % 10 = 0 then some (generatePayload payloadSize nowUnix) else none
  hash

/-- Embedding of `logic.executeCPUWork`: iterate the SHA-256 chain
`iterations` times starting from the seed buffer and print the first
8 bytes in hex. -/
def executeCPUWork (iterations payloadSize : ℤ) (nowUnix : ℤ) : String :=
  bytesToHex (((List.range iterations.toNat).foldl (cpuIteration payloadSize nowUnix) cpuSeedData).take 8)

/-- Observable behaviour of `logic.executeIOWork`: the nominal duration of
each `time.Sleep` call it makes, in order, and the returned result string.
The payload JSON round-trips on every third chunk are discarded by the Go
code and affect neither component. -/
structure IoWorkTrace where
  sleepsMs : List ℤ
  result : String

/-- Embedding of `logic.executeIOWork`: sleep in 10 chunks of
`sleepMs / 10` milliseconds (truncated division), or a single chunk of
`sleepMs` when `sleepMs < 10`, and report `slept_` followed by the
requested `sleepMs` and `ms`. -/
def executeIOWork (sleepMs payloadSize : ℤ) : IoWorkTrace :=
  let chunks : ℤ := if sleepMs < 10 then 1 else 10
  let chunkDuration : ℤ := Int.tdiv sleepMs chunks
  let _payloadSize := payloadSize
  { sleepsMs := List.replicate chunks.toNat chunkDuration
    result := "slept_" ++ toString sleepMs ++ "ms" }

/-- Embedding of `logic.Execute`: validate the request, run the selected
workload, and build the response.  The elapsed processing time, the clock
read by payload generation, and the completion timestamp are parameters. -/
def Execute (req : Request) (protocol : String) (elapsedMs : ℚ) (nowUnix : ℤ)
    (timestamp : String) : Except String Response :=
  if req.requestID = "" then .error "request_id is required"
  else if req.mode ≠ ModeCPU ∧ req.mode ≠ ModeIo then
    .error ("invalid mode: " ++ req.mode ++ " (must be cpu or io)")
  else if req.workFactor < 0 then .error "work_factor must be non-negative"
  else if req.payloadSizeBytes < 0 then .error "payload_size_bytes must be non-negative"
  else if req.mode = ModeCPU then
    .ok { requestID := req.requestID, mode := req.mode, workFactor := req.workFactor
          payloadSizeBytes := req.payloadSizeBytes
          result := executeCPUWork req.workFactor req.payloadSizeBytes nowUnix
          serverProcessingMs := elapsedMs, protocol := protocol, timestamp := timestamp }
  else if req.mode = ModeIo then
    .ok { requestID := req.requestID, mode := req.mode, workFactor := req.workFactor
          payloadSizeBytes := req.payloadSizeBytes
          result := (executeIOWork req.workFactor req.payloadSizeBytes).result
          serverProcessingMs := elapsedMs, protocol := protocol, timestamp := timestamp }
  else .error ("unsupported mode: " ++ req.mode)

end logic

namespace results

/-- Floor of a rational pinned between consecutive integers. -/
theorem floor_eq_of_bounds (a : ℤ) (q : ℚ) (h1 : (a : ℚ) ≤ q) (h2 : q < a + 1) :
    ⌊q⌋ = a := by
  rw [Int.floor_eq_iff]
  exact ⟨h1, h2⟩

/-- Ceiling of a rational pinned between consecutive integers. -/
theorem ceil_eq_of_bounds (a : ℤ) (q : ℚ) (h1 : (a : ℚ) - 1 < q) (h2 : q ≤ a) :
    ⌈q⌉ = a := by
  rw [Int.ceil_eq_iff]
  exact ⟨h1, h2⟩

/-- Evaluation of `Aggregate` on a collector made of successes with already
ascending latencies followed by `k` failures. -/
theorem aggregate_eval (lats : List ℚ) (k : ℕ) (e : String) (d : ℚ)
    (hne : lats ≠ []) (hsorted : List.Pairwise (fun a b : ℚ => a ≤ b) lats) :
    (Collector.mk (lats.map (fun x => ({ latencyMs := x, success := true } : RequestResult)) ++
        List.replicate k ({ success := false, error := e } : RequestResult))).Aggregate d =
      { totalRequests := lats.length + k
        successfulRequests := lats.length
        failedRequests := k
        rps := (lats.length : ℚ) / d
        p50 := percentile lats 50
        p90 := percentile lats 90
        p95 := percentile lats 95
        p99 := percentile lats 99
        mean := mean lats
        min := lats.getD 0 0
        max := lats.getD (lats.length - 1) 0
        errorRate := (k : ℚ) / ((lats.length : ℚ) + (k : ℚ)) } := by
  have hfilter : (lats.map (fun x => ({ latencyMs := x, success := true } : RequestResult)) ++
      List.replicate k ({ success := false, error := e } : RequestResult)).filter
        (fun r => r.success) =
      lats.map (fun x => ({ latencyMs := x, success := true } : RequestResult)) := by
    rw [List.filter_append]
    rw [List.filter_eq_self.mpr (by intro a ha; simp at ha; obtain ⟨x, _, hx⟩ := ha; simp [← hx])]
    rw [List.filter_eq_nil_iff.mpr (by intro a ha; rw [List.eq_of_mem_replicate ha]; simp)]
    simp
  have hfilter2 : (lats.map (fun x => ({ latencyMs := x, success := true } : RequestResult)) ++
      List.replicate k ({ success := false, error := e } : RequestResult)).filter
        (fun r => !r.success) =
      List.replicate k ({ success := false, error := e } : RequestResult) := by
    rw [List.filter_append]
    rw [List.filter_eq_nil_iff.mpr (by intro a ha; simp at ha; obtain ⟨x, _, hx⟩ := ha; simp [← hx])]
    rw [List.filter_eq_self.mpr (by intro a ha; rw [List.eq_of_mem_replicate ha]; simp)]
    simp
  have hmaplats : (lats.map (fun x => ({ latencyMs := x, success := true } : RequestResult))).map
      (fun r => r.latencyMs) = lats := by
    have hcomp : ((fun r : RequestResult => r.latencyMs) ∘
        fun x : ℚ => ({ latencyMs := x, success := true } : RequestResult)) = id := rfl
    rw [List.map_map, hcomp, List.map_id]
  have hsort : lats.mergeSort (fun a b => a ≤ b) = lats :=
    List.mergeSort_of_sorted (hsorted.imp (fun h => by simpa using h))
  have hlen0 : ¬ (lats.map (fun x => ({ latencyMs := x, success := true } : RequestResult)) ++
      List.replicate k ({ success := false, error := e } : RequestResult)).length = 0 := by
    simp [hne]
  have hlatne : ¬ lats.length = 0 := by simpa [List.length_eq_zero] using hne
  rw [Collector.Aggregate, if_neg hlen0]
  simp only [hfilter, hfilter2, hmaplats, hsort, List.length_map, List.length_append,
    List.length_replicate, if_neg hlatne]
  congr 1
  push_cast
  ring

/-- C1: `percentile` on an ascending-sorted non-empty list and `p` in
`[0, 100]` computes the index `i = (p/100)*(n-1)`, both `floor i` and
`ceil i` are in range, it returns `sorted[floor i]` when the two agree and
otherwise interpolates linearly with `frac = i - floor i`; on `[1..10]` it
returns `5.5` at `p = 50`, `9.1` at `p = 90` and `9.91` at `p = 99`. -/
theorem percentile_interpolation_spec :
    (∀ (sorted : List ℚ) (p i : ℚ), sorted ≠ [] → 0 ≤ p → p ≤ 100 →
      i = (p / 100) * ((sorted.length : ℚ) - 1) →
      ∃ (hlo : (⌊i⌋).toNat < sorted.length) (hhi : (⌈i⌉).toNat < sorted.length),
        percentile sorted p =
          if ⌊i⌋ = ⌈i⌉ then sorted.get ⟨(⌊i⌋).toNat, hlo⟩
          else sorted.get ⟨(⌊i⌋).toNat, hlo⟩ * (1 - (i - (⌊i⌋ : ℚ))) +
               sorted.get ⟨(⌈i⌉).toNat, hhi⟩ * (i - (⌊i⌋ : ℚ))) ∧
    percentile [1,2,3,4,5,6,7,8,9,10] 50 = 11/2 ∧
    percentile [1,2,3,4,5,6,7,8,9,10] 90 = 91/10 ∧
    percentile [1,2,3,4,5,6,7,8,9,10] 99 = 991/100 := by
  refine ⟨?_, ?_, ?_, ?_⟩
  · intro sorted p i hne h0 h1 hi
    have hn : 1 ≤ sorted.length := List.length_pos.mpr hne
    have hnq : (1 : ℚ) ≤ (sorted.length : ℚ) := by exact_mod_cast hn
    have hi0 : 0 ≤ i := by
      rw [hi]
      exact mul_nonneg (div_nonneg h0 (by norm_num)) (by linarith)
    have hile : i ≤ (sorted.length : ℚ) - 1 := by
      rw [hi]
      have hp1 : p / 100 ≤ 1 := (div_le_one (by norm_num)).mpr h1
      exact mul_le_of_le_one_left (by linarith) hp1
    have hfl0 : 0 ≤ ⌊i⌋ := Int.floor_nonneg.mpr hi0
    have hflle : ⌊i⌋ ≤ (sorted.length : ℤ) - 1 := by
      have h2 : i ≤ (((sorted.length : ℤ) - 1 : ℤ) : ℚ) := by push_cast; exact hile
      have := Int.floor_le_floor h2
      simpa using this
    have hcl : ⌈i⌉ ≤ (sorted.length : ℤ) - 1 := by
      rw [Int.ceil_le]
      push_cast
      exact hile
    have hcl0 : 0 ≤ ⌈i⌉ := le_trans hfl0 (Int.floor_le_ceil i)
    have hlo : (⌊i⌋).toNat < sorted.length := by omega
    have hhi : (⌈i⌉).toNat < sorted.length := by omega
    refine ⟨hlo, hhi, ?_⟩
    have hlen : ¬ sorted.length = 0 := by omega
    rw [percentile]
    rw [if_neg hlen]
    simp only [← hi]
    rw [List.getD_eq_getElem _ _ hlo, List.getD_eq_getElem _ _ hhi]
    simp [List.get_eq_getElem]
  · have hf : ⌊(9/2 : ℚ)⌋ = 4 := floor_eq_of_bounds 4 _ (by norm_num) (by norm_num)
    have hc : ⌈(9/2 : ℚ)⌉ = 5 := ceil_eq_of_bounds 5 _ (by norm_num) (by norm_num)
    have h4 : (4 : ℤ).toNat = 4 := rfl
    have h5 : (5 : ℤ).toNat = 5 := rfl
    norm_num [percentile, List.getD, hf, hc, h4, h5]
  · have hf : ⌊(81/10 : ℚ)⌋ = 8 := floor_eq_of_bounds 8 _ (by norm_num) (by norm_num)
    have hc : ⌈(81/10 : ℚ)⌉ = 9 := ceil_eq_of_bounds 9 _ (by norm_num) (by norm_num)
    have h8 : (8 : ℤ).toNat = 8 := rfl
    have h9 : (9 : ℤ).toNat = 9 := rfl
    norm_num [percentile, List.getD, hf, hc, h8, h9]
  · have hf : ⌊(891/100 : ℚ)⌋ = 8 := floor_eq_of_bounds 8 _ (by norm_num) (by norm_num)
    have hc : ⌈(891/100 : ℚ)⌉ = 9 := ceil_eq_of_bounds 9 _ (by norm_num) (by norm_num)
    have h8 : (8 : ℤ).toNat = 8 := rfl
    have h9 : (9 : ℤ).toNat = 9 := rfl
    norm_num [percentile, List.getD, hf, hc, h8, h9]

/-- Witness for C1: the interpolation clause applied to the concrete list
`[3, 4]` at `p = 50`, whose index is `1/2`. -/
theorem percentile_interpolation_spec_witness :
    ([(3 : ℚ), 4] ≠ ([] : List ℚ) ∧ (0 : ℚ) ≤ 50 ∧ (50 : ℚ) ≤ 100 ∧
      (1/2 : ℚ) = (50 / 100) * ((([(3 : ℚ), 4] : List ℚ).length : ℚ) - 1)) ∧
    (∃ (hlo : (⌊(1/2 : ℚ)⌋).toNat < ([(3 : ℚ), 4] : List ℚ).length)
       (hhi : (⌈(1/2 : ℚ)⌉).toNat < ([(3 : ℚ), 4] : List ℚ).length),
        percentile [3, 4] 50 =
          if ⌊(1/2 : ℚ)⌋ = ⌈(1/2 : ℚ)⌉ then
            ([(3 : ℚ), 4] : List ℚ).get ⟨(⌊(1/2 : ℚ)⌋).toNat, hlo⟩
          else
            ([(3 : ℚ), 4] : List ℚ).get ⟨(⌊(1/2 : ℚ)⌋).toNat, hlo⟩ * (1 - ((1/2 : ℚ) - (⌊(1/2 : ℚ)⌋ : ℚ))) +
            ([(3 : ℚ), 4] : List ℚ).get ⟨(⌈(1/2 : ℚ)⌉).toNat, hhi⟩ * ((1/2 : ℚ) - (⌊(1/2 : ℚ)⌋ : ℚ))) :=
  ⟨⟨by simp, by norm_num, by norm_num, by norm_num⟩,
    percentile_interpolation_spec.1 [3, 4] 50 (1/2) (by simp) (by norm_num) (by norm_num) (by norm_num)⟩

/-- C2: aggregating a collector that holds zero results returns the
all-zero `AggregatedStats` for every duration; in particular the error
rate is `0`, not the result of a division by zero. -/
theorem aggregate_empty_is_zero (c : Collector) (d : ℚ) (h : c.results = []) :
    c.Aggregate d = AggregatedStats.zero := by
  simp [Collector.Aggregate, h]

/-- Witness for C2: the fresh collector aggregated over 5 seconds. -/
theorem aggregate_empty_is_zero_witness :
    NewCollector.results = [] ∧ NewCollector.Aggregate 5 = AggregatedStats.zero :=
  ⟨rfl, aggregate_empty_is_zero NewCollector 5 rfl⟩

/-- C3: aggregating a non-empty collector whose results all failed yields
total and failed counts equal to the number of results, zero successes,
error rate exactly `1`, and every latency statistic equal to `0`. -/
theorem aggregate_all_failures (c : Collector) (d : ℚ) (hne : c.results ≠ [])
    (hfail : ∀ r ∈ c.results, r.success = false) :
    (c.Aggregate d).totalRequests = c.results.length ∧
    (c.Aggregate d).failedRequests = c.results.length ∧
    (c.Aggregate d).successfulRequests = 0 ∧
    (c.Aggregate d).errorRate = 1 ∧
    (c.Aggregate d).p50 = 0 ∧ (c.Aggregate d).p90 = 0 ∧
    (c.Aggregate d).p95 = 0 ∧ (c.Aggregate d).p99 = 0 ∧
    (c.Aggregate d).mean = 0 ∧ (c.Aggregate d).min = 0 ∧ (c.Aggregate d).max = 0 := by
  have hfilter : c.results.filter (fun r => r.success) = [] := by
    rw [List.filter_eq_nil_iff]
    intro a ha
    simp [hfail a ha]
  have hfilter2 : c.results.filter (fun r => !r.success) = c.results := by
    rw [List.filter_eq_self]
    intro a ha
    simp [hfail a ha]
  have hlen : ¬ c.results.length = 0 := by
    simpa [List.length_eq_zero] using hne
  have hrate : ((c.results.length : ℚ)) / ((c.results.length : ℚ)) = 1 := by
    apply div_self
    exact_mod_cast hlen
  simp [Collector.Aggregate, hfilter, hfilter2, hlen, hrate]

/-- Witness for C3: a collector holding a single failed result. -/
theorem aggregate_all_failures_witness :
    ((⟨[{ success := false, error := "error" }]⟩ : Collector).results ≠ [] ∧
      ∀ r ∈ (⟨[{ success := false, error := "error" }]⟩ : Collector).results, r.success = false) ∧
    ((⟨[{ success := false, error := "error" }]⟩ : Collector).Aggregate 1).totalRequests = 1 ∧
    ((⟨[{ success := false, error := "error" }]⟩ : Collector).Aggregate 1).failedRequests = 1 ∧
    ((⟨[{ success := false, error := "error" }]⟩ : Collector).Aggregate 1).successfulRequests = 0 ∧
    ((⟨[{ success := false, error := "error" }]⟩ : Collector).Aggregate 1).errorRate = 1 := by
  have h := aggregate_all_failures ⟨[{ success := false, error := "error" }]⟩ 1
    (by simp) (by simp)
  exact ⟨⟨by simp, by simp⟩, by simpa using h.1, by simpa using h.2.1, h.2.2.1, h.2.2.2.1⟩

/-- C4: for every non-empty collector, RPS is the successful count divided
by the duration in seconds and the error rate is the failed count divided
by the total count; the reference collector (100 successes with latencies
1..100 ms plus 10 failures) aggregated over 10 seconds gives total 110,
successful 100, failed 10, RPS 10, min 1, max 100, mean 50.5 and error
rate 10/110. -/
theorem aggregate_rates_and_sample :
    (∀ (c : Collector) (d : ℚ), c.results ≠ [] →
      (c.Aggregate d).rps = ((c.results.filter (fun r => r.success)).length : ℚ) / d ∧
      (c.Aggregate d).errorRate =
        ((c.results.filter (fun r => !r.success)).length : ℚ) / (c.results.length : ℚ)) ∧
    (sampleCollector.Aggregate 10).totalRequests = 110 ∧
    (sampleCollector.Aggregate 10).successfulRequests = 100 ∧
    (sampleCollector.Aggregate 10).failedRequests = 10 ∧
    (sampleCollector.Aggregate 10).rps = 10 ∧
    (sampleCollector.Aggregate 10).min = 1 ∧
    (sampleCollector.Aggregate 10).max = 100 ∧
    (sampleCollector.Aggregate 10).mean = 101 / 2 ∧
    (sampleCollector.Aggregate 10).errorRate = 10 / 110 := by
  constructor
  · intro c d hne
    have hlen : ¬ c.results.length = 0 := by
      simpa [List.length_eq_zero] using hne
    constructor
    · simp only [Collector.Aggregate, hlen, if_false]
      split
      · rfl
      · rfl
    · simp only [Collector.Aggregate, hlen, if_false]
      split
      · rfl
      · rfl
  · have hne : sampleLatencies ≠ [] := by simp [sampleLatencies]
    have hpair : sampleLatencies.Pairwise (fun a b : ℚ => a ≤ b) := by
      rw [sampleLatencies, List.pairwise_map]
      exact (List.pairwise_lt_range 100).imp (fun hab => by exact_mod_cast Nat.succ_le_succ hab.le)
    have key := aggregate_eval sampleLatencies 10 "test error" 10 hne hpair
    have hlen : sampleLatencies.length = 100 := by simp [sampleLatencies]
    have hsum : sampleLatencies.sum = 5050 := by
      have hL : sampleLatencies = ((List.range 100).map (fun i => i + 1)).map (fun n : ℕ => (n : ℚ)) := by
        rw [sampleLatencies, List.map_map]
        rfl
      rw [hL, ← Nat.cast_list_sum]
      norm_num [show ((List.range 100).map (fun i => i + 1)).sum = 5050 from by decide]
    have hmin : sampleLatencies.getD 0 0 = 1 := by
      rw [List.getD_eq_getElem _ _ (by rw [hlen]; norm_num)]
      simp [sampleLatencies]
    have hmax : sampleLatencies.getD (sampleLatencies.length - 1) 0 = 100 := by
      rw [List.getD_eq_getElem _ _ (by omega)]
      simp [sampleLatencies, hlen]
      norm_num
    have hmean : mean sampleLatencies = 101 / 2 := by
      rw [mean, if_neg (by rw [hlen]; norm_num), hsum, hlen]
      norm_num
    rw [show sampleCollector = Collector.mk
        (sampleLatencies.map (fun x => ({ latencyMs := x, success := true } : RequestResult)) ++
          List.replicate 10 ({ success := false, error := "test error" } : RequestResult)) from rfl]
    rw [key]
    refine ⟨by rw [hlen], by rw [hlen], rfl, ?_, hmin, hmax, hmean, ?_⟩
    · rw [hlen]
      norm_num
    · rw [hlen]
      norm_num

/-- Witness for C4: the rate clause applied to a one-success collector. -/
theorem aggregate_rates_and_sample_witness :
    ((⟨[{ latencyMs := 2, success := true }]⟩ : Collector).results ≠ []) ∧
    ((⟨[{ latencyMs := 2, success := true }]⟩ : Collector).Aggregate 2).rps =
      ((((⟨[{ latencyMs := 2, success := true }]⟩ : Collector).results.filter
          (fun r => r.success)).length : ℚ) / 2) ∧
    ((⟨[{ latencyMs := 2, success := true }]⟩ : Collector).Aggregate 2).errorRate =
      ((((⟨[{ latencyMs := 2, success := true }]⟩ : Collector).results.filter
          (fun r => !r.success)).length : ℚ) /
        (((⟨[{ latencyMs := 2, success := true }]⟩ : Collector).results.length : ℚ))) :=
  ⟨by simp,
    (aggregate_rates_and_sample.1 ⟨[{ latencyMs := 2, success := true }]⟩ 2 (by simp)).1,
    (aggregate_rates_and_sample.1 ⟨[{ latencyMs := 2, success := true }]⟩ 2 (by simp)).2⟩

end results

namespace logic

/-- C9: `executeCPUWork` is deterministic in the work factor and payload
size — the wall-clock reading that payload generation embeds in its
(discarded) payload never influences the returned hash-chain string. -/
theorem executeCPUWork_deterministic (iterations payloadSize nowUnix₁ nowUnix₂ : ℤ) :
    executeCPUWork iterations payloadSize nowUnix₁ = executeCPUWork iterations payloadSize nowUnix₂ :=
  rfl

/-- C10: for a work factor `w ≥ 10`, `executeIOWork` sleeps in 10 chunks of
`w / 10` (truncated) milliseconds, so the nominal total is `10 * (w / 10)`,
equal to `w` exactly when `10 ∣ w` and strictly less otherwise, while the
result string always reports the requested `w`; for `w < 10` it sleeps a
single chunk of exactly `w` milliseconds. -/
theorem executeIOWork_chunking (w ps : ℤ) :
    (executeIOWork w ps).result = "slept_" ++ toString w ++ "ms" ∧
    (10 ≤ w →
      (executeIOWork w ps).sleepsMs = List.replicate 10 (Int.tdiv w 10) ∧
      (executeIOWork w ps).sleepsMs.sum = 10 * Int.tdiv w 10 ∧
      (10 ∣ w → (executeIOWork w ps).sleepsMs.sum = w) ∧
      (¬ 10 ∣ w → (executeIOWork w ps).sleepsMs.sum < w)) ∧
    (w < 10 → (executeIOWork w ps).sleepsMs = [w]) := by
  refine ⟨rfl, ?_, ?_⟩
  · intro hw
    have hnot : ¬ w < 10 := by omega
    have hrep : (executeIOWork w ps).sleepsMs = List.replicate 10 (Int.tdiv w 10) := by
      simp [executeIOWork, hnot]
    have hsum : (executeIOWork w ps).sleepsMs.sum = 10 * Int.tdiv w 10 := by
      rw [hrep, List.sum_replicate, nsmul_eq_mul]
      norm_num
    have hdiv : Int.tdiv w 10 = w / 10 := Int.tdiv_eq_ediv (by omega) (by omega)
    refine ⟨hrep, hsum, ?_, ?_⟩
    · intro hdvd
      rw [hsum, hdiv]
      omega
    · intro hdvd
      rw [hsum, hdiv]
      omega
  · intro hw
    simp [executeIOWork, hw]

/-- Witness for C10: requesting 15 ms sleeps 10 chunks of 1 ms for a
nominal total of 10 ms, and requesting 3 ms sleeps a single 3 ms chunk. -/
theorem executeIOWork_chunking_witness :
    ((10 : ℤ) ≤ 15 ∧ ¬ (10 : ℤ) ∣ 15 ∧ (3 : ℤ) < 10) ∧
    (executeIOWork 15 256).sleepsMs = List.replicate 10 (Int.tdiv 15 10) ∧
    (executeIOWork 15 256).sleepsMs.sum = 10 * Int.tdiv 15 10 ∧
    (executeIOWork 15 256).sleepsMs.sum < 15 ∧
    (executeIOWork 3 256).sleepsMs = [3] := by
  refine ⟨⟨by norm_num, by decide, by norm_num⟩, ?_, ?_, ?_, ?_⟩
  · exact ((executeIOWork_chunking 15 256).2.1 (by norm_num)).1
  · exact ((executeIOWork_chunking 15 256).2.1 (by norm_num)).2.1
  · exact ((executeIOWork_chunking 15 256).2.1 (by norm_num)).2.2.2 (by decide)
  · exact (executeIOWork_chunking 3 256).2.2 (by norm_num)

/-- C7: `Execute` fails exactly when the identifier is empty, the mode is
neither cpu nor io, the work factor is negative, or the payload size is
negative; on every valid input it returns a response echoing the request
fields, the caller-supplied protocol name, and the measured processing
time. -/
theorem Execute_validation :
    ∀ (req : Request) (protocol : String) (elapsedMs : ℚ) (nowUnix : ℤ) (ts : String),
      ((∃ msg, Execute req protocol elapsedMs nowUnix ts = .error msg) ↔
        (req.requestID = "" ∨ (req.mode ≠ ModeCPU ∧ req.mode ≠ ModeIo) ∨
          req.workFactor < 0 ∨ req.payloadSizeBytes < 0)) ∧
      (req.requestID ≠ "" → (req.mode = ModeCPU ∨ req.mode = ModeIo) →
        0 ≤ req.workFactor → 0 ≤ req.payloadSizeBytes →
        ∃ resp, Execute req protocol elapsedMs nowUnix ts = .ok resp ∧
          resp.requestID = req.requestID ∧ resp.mode = req.mode ∧
          resp.workFactor = req.workFactor ∧ resp.payloadSizeBytes = req.payloadSizeBytes ∧
          resp.serverProcessingMs = elapsedMs ∧ resp.protocol = protocol) := by
  intro req protocol elapsedMs nowUnix ts
  constructor
  · rw [Execute]
    split_ifs with h1 h2 h3 h4 h5 h6
    all_goals simp_all
  · intro hid hmode hwf hps
    rw [Execute]
    rw [if_neg hid, if_neg (by tauto), if_neg (not_lt.mpr hwf), if_neg (not_lt.mpr hps)]
    rcases hmode with h | h
    · rw [if_pos h]
      exact ⟨_, rfl, rfl, rfl, rfl, rfl, rfl, rfl⟩
    · by_cases hcpu : req.mode = ModeCPU
      · rw [if_pos hcpu]
        exact ⟨_, rfl, rfl, rfl, rfl, rfl, rfl, rfl⟩
      · rw [if_neg hcpu, if_pos h]
        exact ⟨_, rfl, rfl, rfl, rfl, rfl, rfl, rfl⟩

/-- Witness for C7: an empty identifier is rejected, and a valid io-mode
request succeeds with its fields echoed. -/
theorem Execute_validation_witness :
    (∃ msg, Execute ⟨"", ModeCPU, 10, 0⟩ "rest" 1 0 "t" = .error msg) ∧
    ((⟨"w1", ModeIo, 10, 0⟩ : Request).requestID ≠ "" ∧
      ((⟨"w1", ModeIo, 10, 0⟩ : Request).mode = ModeCPU ∨
        (⟨"w1", ModeIo, 10, 0⟩ : Request).mode = ModeIo)) ∧
    (∃ resp, Execute ⟨"w1", ModeIo, 10, 0⟩ "rest" 1 0 "t" = .ok resp ∧
      resp.requestID = "w1" ∧ resp.mode = ModeIo ∧
      resp.workFactor = 10 ∧ resp.payloadSizeBytes = 0 ∧
      resp.serverProcessingMs = 1 ∧ resp.protocol = "rest") :=
  ⟨(Execute_validation ⟨"", ModeCPU, 10, 0⟩ "rest" 1 0 "t").1.mpr (Or.inl rfl),
    ⟨by simp, Or.inr rfl⟩,
    (Execute_validation ⟨"w1", ModeIo, 10, 0⟩ "rest" 1 0 "t").2
      (by simp) (Or.inr rfl) (by norm_num) (by norm_num)⟩

end logic
